import Mathlib

/-!
Shallow embedding of the metasearch Figma engine (src/src/engines/figma.ts)
together with a model of the single-flight behaviour of the `rateLimit`
wrapper it imports from `../util` (that file is not part of the sources;
its behaviour is modelled from the spec, §4.1).

Promises are embedded as `Except Err` values: a resolved promise is `.ok`,
a rejected one is `.error`.  The network is embedded as an explicit
environment (`Backend`): a function giving, for every search request and
every thumbnail probe, the response the backend would produce.
-/

namespace Figma

/-- Errors thrown by the engine.  `notInitialized` is
`Error("Engine not initialized")`, `loginFailed` is
`Error("Figma login failed")`, `thumbnailNotFound` is
`Error("Thumbnail URL not found")` (thrown when the thumbnail probe
resolves, i.e. returns a 2xx), `httpError s` is the transport error axios
throws for a non-2xx status `s` other than the caught 302, and
`backendError` stands for an arbitrary rejection of a search sub-query. -/
inductive Err where
  | notInitialized
  | loginFailed
  | thumbnailNotFound
  | httpError (status : Nat)
  | backendError (msg : String)
deriving DecidableEq

/-- Response of the no-redirect thumbnail probe: HTTP status and the
`location` header (axios exposes headers lower-cased). -/
structure HttpResp where
  status : Nat
  location : String
deriving DecidableEq

/-- The `File` interface of figma.ts: creator handle, name, thumbnail URL
and entity URL.  The nested `creator: { handle }` is flattened to the only
field the code reads. -/
structure File where
  creator_handle : String
  name : String
  thumbnail_url : String
  url : String
deriving DecidableEq

/-- The `model: { id, name }` sub-object of project and team elements. -/
structure NameId where
  id : String
  name : String
deriving DecidableEq

/-- Element shape of the `fig_files` search response: `{ model: File }`. -/
structure FileEl where
  model : File
deriving DecidableEq

/-- Element shape of the `folders` search response:
`{ file_count, model, recent_files }`. -/
structure ProjectEl where
  file_count : Nat
  model : NameId
  recent_files : List File
deriving DecidableEq

/-- Element shape of the `teams` search response:
`{ member_count, model }`. -/
structure TeamEl where
  member_count : Nat
  model : NameId
deriving DecidableEq

/-- The host-facing `Result` shape (`{snippet?, title, url}`); all three
normalizers of this engine populate the optional snippet. -/
structure Result where
  snippet : Option String
  title : String
  url : String
deriving DecidableEq

/-- The authenticated axios instance created after login: base URL plus the
`Cookie` header bound into every request issued through it. -/
structure Client where
  baseURL : String
  cookie : String
deriving DecidableEq

/-- A character the JS `split(/[=;]/)` splits on. -/
def isCookieDelim (ch : Char) : Bool :=
  ch == '=' || ch == ';'

/-- JS `String.prototype.split` with the single-character class `[=;]`:
cut the character list at every `=` or `;`, keeping empty fields. -/
def splitFields : List Char → List (List Char)
  | [] => [[]]
  | ch :: rest =>
    if isCookieDelim ch then
      [] :: splitFields rest
    else
      match splitFields rest with
      | f :: fs => (ch :: f) :: fs
      | [] => [[ch]]

/-- The test `/^figma\.st=[^;]/.test(c)`: the cookie starts with the nine
characters `figma.st=` followed by at least one character that is not
`;`. -/
def sessionCookieRegexMatch (c : String) : Bool :=
  c.data.take 9 == "figma.st=".data &&
    (match c.data.drop 9 with
     | [] => false
     | ch :: _ => ch != ';')

/-- Token extraction from the login response cookies, figma.ts lines
27-29: `find` the first cookie matching the session-cookie regex, split it
on `=` and `;`, take element `[1]`. -/
def extractToken (cookies : List String) : Option String :=
  (cookies.find? sessionCookieRegexMatch).bind
    fun c => ((splitFields c.data).get? 1).map List.asString

/-- The login factory passed to `rateLimit` (figma.ts lines 19-38),
starting from the `set-cookie` header of the login response: if the
extracted token is missing or empty (JS `!token`) the factory throws
`Error("Figma login failed")`; otherwise it creates the authenticated
axios instance with the `Cookie: figma.st=<token>` header. -/
def login (cookies : List String) : Except Err Client :=
  match extractToken cookies with
  | none => .error .loginFailed
  | some t =>
    if t = "" then .error .loginFailed
    else .ok { baseURL := "https://www.figma.com", cookie := "figma.st=" ++ t }

/-- The linked-thumbnail markup fragment built at figma.ts line 69. -/
def thumbnailFragment (entityUrl src : String) : String :=
  "<a href=\"" ++ entityUrl ++ "\"><img src=\"" ++ src ++ "\"></a>"

/-- `getThumbnail` (figma.ts lines 57-73).  The probe result for the
file's thumbnail URL is given by `probe`.  A 2xx status means the axios
`get` resolved, so the code throws `Error("Thumbnail URL not found")`; a
302 is caught and turned into the markup fragment using the `location`
header; any other status is the axios rejection, re-thrown. -/
def getThumbnail (probe : String → HttpResp) (f : File) : Except Err String :=
  let r := probe f.thumbnail_url
  if 200 ≤ r.status ∧ r.status < 300 then .error .thumbnailNotFound
  else if r.status = 302 then .ok (thumbnailFragment f.url r.location)
  else .error (.httpError r.status)

/-- `Promise.all(l.map f)` for promises embedded as `Except`: succeeds with
the list of values in order iff every element succeeds, and rejects if any
element rejects. -/
def allResults (f : α → Except Err β) : List α → Except Err (List β)
  | [] => .ok []
  | x :: xs => do
    let y ← f x
    let ys ← allResults f xs
    pure (y :: ys)

/-- `getResult` of the `fig_files` model type (figma.ts lines 77-84). -/
def fileGetResult (probe : String → HttpResp) (f : File) : Except Err Result := do
  let th ← getThumbnail probe f
  pure { snippet := some ("File created by " ++ f.creator_handle ++ "<br>" ++ th),
         title := f.name,
         url := f.url }

/-- `getResult` of the `folders` model type (figma.ts lines 87-109):
singular/plural file count, `<br>`, then the thumbnails of the first at
most 3 recent files joined with the empty separator. -/
def projectGetResult (probe : String → HttpResp) (orgId : String)
    (p : ProjectEl) : Except Err Result := do
  let ths ← allResults (getThumbnail probe) (p.recent_files.take 3)
  pure { snippet := some ("Project containing " ++
           (if p.file_count = 1 then "1 file" else toString p.file_count ++ " files") ++
           "<br>" ++ String.join ths),
         title := p.model.name,
         url := "https://www.figma.com/files/" ++ orgId ++ "/project/" ++ p.model.id }

/-- `getResult` of the `teams` model type (figma.ts lines 112-125); it
performs no request and cannot fail. -/
def teamGetResult (orgId : String) (t : TeamEl) : Result :=
  { snippet := some ("Team with " ++
      (if t.member_count = 1 then "1 member" else toString t.member_count ++ " members")),
    title := t.model.name,
    url := "https://www.figma.com/files/" ++ orgId ++ "/team/" ++ t.model.id }

/-- Query parameters of every search sub-request (figma.ts lines 141-146). -/
structure SearchParams where
  desc : Bool
  org_id : String
  query : String
  sort : String
deriving DecidableEq

/-- The parameters built for a given organization id and query string. -/
def mkSearchParams (orgId q : String) : SearchParams :=
  { desc := false, org_id := orgId, query := q, sort := "relevancy" }

/-- The environment a `search` call runs against: for each of the three
kind-specific endpoints, the response (`meta.results` list or rejection)
the backend gives to a request with the supplied parameters, and the
response of the no-redirect probe of any thumbnail URL. -/
structure Backend where
  fig_files : SearchParams → Except Err (List FileEl)
  folders : SearchParams → Except Err (List ProjectEl)
  teams : SearchParams → Except Err (List TeamEl)
  probe : String → HttpResp

/-- The module-level mutable state of figma.ts (lines 5-6): `getClient`
and `orgId`, both `undefined` before `init`.  `getClient`, once set, is
the rate-limited login accessor; awaiting it yields the settled outcome
recorded here (the single-flight sharing itself is modelled by
`sfStep` below). -/
structure EngineState where
  getClient : Option (Except Err Client)
  orgId : Option String

/-- `engine.init` (figma.ts lines 10-41) as a state producer: installs the
rate-limited login accessor (whose first invocation outcome is
`login cookies`) and stores `orgId = String(organization)`. -/
def init (organization : Nat) (cookies : List String) : EngineState :=
  { getClient := some (login cookies), orgId := some (toString organization) }

/-- The string the JS template `${orgId}` interpolates: the stored value,
or `"undefined"` when `orgId` was never set. -/
def orgString (st : EngineState) : String :=
  st.orgId.getD "undefined"

/-- The parameters `search` sends with each of its three sub-requests. -/
def searchParams (st : EngineState) (q : String) : SearchParams :=
  mkSearchParams (orgString st) q

/-- `engine.search` (figma.ts lines 43-155): fail if not initialized,
await the shared client, issue the three kind queries with identical
parameters, normalize each kind's results in order, and flatten
files ++ projects ++ teams.  `Promise.all` rejection is modelled by
`Except` error propagation: any rejecting sub-query or thumbnail
resolution rejects the whole call. -/
def search (st : EngineState) (q : String) (b : Backend) :
    Except Err (List Result) :=
  match st.getClient with
  | none => .error .notInitialized
  | some clientOutcome => do
    let _client ← clientOutcome
    let fl ← b.fig_files (searchParams st q)
    let frs ← allResults (fun el => fileGetResult b.probe el.model) fl
    let pl ← b.folders (searchParams st q)
    let prs ← allResults (projectGetResult b.probe (orgString st)) pl
    let tl ← b.teams (searchParams st q)
    pure (frs ++ prs ++ (tl.map (teamGetResult (orgString st))))

/-- Modelled from the spec: status of the `rateLimit` accessor from
`../util` (not under the sources; spec §4.1).  Either no factory
invocation has happened since the last settled one (`idle`), or one
invocation is in flight with the identifiers of the callers awaiting it
(`pending`), or a successfully produced value is cached (`cached`).  A
rejection never populates the cache, so only `.ok` values are stored. -/
inductive SFStatus (α : Type) where
  | idle
  | pending (waiters : List Nat)
  | cached (value : α)
deriving DecidableEq

/-- Modelled from the spec: observable state of the accessor — its status,
how many times the wrapped factory has been invoked, and the log of
results delivered to callers, as `(caller, outcome)` pairs in delivery
order. -/
structure SFState (α : Type) where
  status : SFStatus α
  invocations : Nat
  delivered : List (Nat × Except Err α)

/-- Modelled from the spec: events of the `rateLimit` accessor from
`../util` — a caller arrives (invokes the accessor), or the in-flight
factory invocation settles with an outcome. -/
inductive SFEvent (α : Type) where
  | arrive (c : Nat)
  | complete (r : Except Err α)

/-- Modelled from the spec: one step of the `rateLimit` accessor
(spec §4.1).  A caller arriving on a cold accessor invokes the factory
once and waits; callers arriving while an invocation is in flight join
its waiters without a new invocation; callers arriving on a populated
cache are served the cached value immediately.  When the invocation
settles, every waiter receives the same outcome; a success is cached, a
rejection leaves the cache empty so the next arrival re-invokes the
factory. -/
def sfStep (s : SFState α) : SFEvent α → SFState α
  | .arrive c =>
    match s.status with
    | .idle => { s with status := .pending [c], invocations := s.invocations + 1 }
    | .pending ws => { s with status := .pending (ws ++ [c]) }
    | .cached v => { s with delivered := s.delivered ++ [(c, .ok v)] }
  | .complete r =>
    match s.status with
    | .pending ws =>
      { s with
        status := match r with | .ok v => .cached v | .error _ => .idle,
        delivered := s.delivered ++ ws.map (fun c => (c, r)) }
    | _ => s

/-- Modelled from the spec: run the `rateLimit` accessor model over a
sequence of events. -/
def sfRun (s : SFState α) (es : List (SFEvent α)) : SFState α :=
  es.foldl sfStep s

/-- Modelled from the spec: the `rateLimit` accessor state just after
`init` — nothing invoked, nothing delivered. -/
def sfInit : SFState α :=
  { status := .idle, invocations := 0, delivered := [] }

/-- The token value as the claim words it, written from the spec for the
refinement comparison (not from the code): the substring of the cookie
between the first `=` and the next `;` or end of string. -/
def specSessionToken (c : String) : String :=
  (((c.data.dropWhile (fun ch => ch ≠ '=')).drop 1).takeWhile
    (fun ch => ch ≠ ';')).asString

/-- The token value the code actually extracts, stated spec-style: the
substring of the cookie between the first `=` or `;` and the next `=` or
`;` (or end of string) — the second field of the split on both
delimiters. -/
def codeSessionToken (c : String) : String :=
  (((c.data.dropWhile (fun ch => !isCookieDelim ch)).drop 1).takeWhile
    (fun ch => !isCookieDelim ch)).asString

/-- One of the conditions under which the spec says the whole `search`
call must reject: a kind sub-query rejects, or a thumbnail probe of a
returned file (or of one of the first 3 recent files of a returned
project) fails to resolve. -/
def someSubqueryFails (st : EngineState) (q : String) (b : Backend) : Prop :=
  (∃ e, b.fig_files (searchParams st q) = .error e) ∨
  (∃ e, b.folders (searchParams st q) = .error e) ∨
  (∃ e, b.teams (searchParams st q) = .error e) ∨
  (∃ l el e, b.fig_files (searchParams st q) = .ok l ∧ el ∈ l ∧
    getThumbnail b.probe el.model = .error e) ∨
  (∃ l p f e, b.folders (searchParams st q) = .ok l ∧ p ∈ l ∧
    f ∈ p.recent_files.take 3 ∧ getThumbnail b.probe f = .error e)

/-! Concrete fixtures used by the witnesses below. -/

/-- A Figma file element as a concrete test input. -/
def sampleFile : File :=
  { creator_handle := "alice", name := "Doc", thumbnail_url := "https://t",
    url := "https://fig.example/f/2" }

/-- A probe that always answers 302 redirecting to a signed image URL. -/
def sampleProbe : String → HttpResp :=
  fun _ => { status := 302, location := "https://img.example/x.png" }

/-- A team element with three members. -/
def sampleTeam : TeamEl :=
  { member_count := 3, model := { id := "t1", name := "T" } }

/-- A project element with one file and no recent files. -/
def sampleProject : ProjectEl :=
  { file_count := 1, model := { id := "p1", name := "P" }, recent_files := [] }

/-- The engine state after initializing with organization 5 and a login
response carrying the session cookie `figma.st=tok`. -/
def sampleState : EngineState := init 5 ["figma.st=tok"]

/-- The client that login builds from the `figma.st=tok` cookie. -/
def sampleClient : Client :=
  { baseURL := "https://www.figma.com", cookie := "figma.st=tok" }

/-- A backend returning one file and one team. -/
def sampleBackend : Backend :=
  { fig_files := fun _ => .ok [{ model := sampleFile }],
    folders := fun _ => .ok [],
    teams := fun _ => .ok [sampleTeam],
    probe := sampleProbe }

/-- A backend returning one project and one team. -/
def sampleBackendPT : Backend :=
  { fig_files := fun _ => .ok [],
    folders := fun _ => .ok [sampleProject],
    teams := fun _ => .ok [sampleTeam],
    probe := sampleProbe }

/-- A backend whose teams sub-query rejects while the others succeed. -/
def sampleBackendTeamsFail : Backend :=
  { fig_files := fun _ => .ok [],
    folders := fun _ => .ok [],
    teams := fun _ => .error (.backendError "boom"),
    probe := sampleProbe }

/-- A backend answering every sub-query with an empty result list. -/
def sampleBackendEmpty : Backend :=
  { fig_files := fun _ => .ok [],
    folders := fun _ => .ok [],
    teams := fun _ => .ok [],
    probe := sampleProbe }

/-- The engine state before `init` has ever been called. -/
def sampleUninit : EngineState := { getClient := none, orgId := none }

/-! Helper lemmas about the embedding. -/

theorem allResults_error_of_mem {f : α → Except Err β} {l : List α} {x : α} {e : Err}
    (hx : x ∈ l) (hfx : f x = .error e) : ∃ e', allResults f l = .error e' := by
  induction l with
  | nil => cases hx
  | cons y ys ih =>
    rcases List.mem_cons.mp hx with rfl | hx'
    · exact ⟨e, by simp [allResults, hfx, Bind.bind, Except.bind]⟩
    · cases hy : f y with
      | error e'' => exact ⟨e'', by simp [allResults, hy, Bind.bind, Except.bind]⟩
      | ok v =>
        obtain ⟨e', he'⟩ := ih hx'
        exact ⟨e', by simp [allResults, hy, he', Bind.bind, Except.bind]⟩

theorem allResults_ok_mem {f : α → Except Err β} {l : List α} {ys : List β}
    (h : allResults f l = .ok ys) : ∀ x ∈ l, ∃ y, f x = .ok y := by
  induction l generalizing ys with
  | nil => intro x hx; cases hx
  | cons z zs ih =>
    intro x hx
    cases hz : f z with
    | error e => simp [allResults, hz, Bind.bind, Except.bind] at h
    | ok v =>
      cases hzs : allResults f zs with
      | error e => simp [allResults, hz, hzs, Bind.bind, Except.bind] at h
      | ok vs =>
        rcases List.mem_cons.mp hx with rfl | hx'
        · exact ⟨v, hz⟩
        · exact ih hzs x hx'

theorem allResults_ok_of_forall {f : α → Except Err β} {g : α → β} {l : List α}
    (h : ∀ x ∈ l, f x = .ok (g x)) : allResults f l = .ok (l.map g) := by
  induction l with
  | nil => rfl
  | cons z zs ih =>
    have hz := h z (List.mem_cons_self z zs)
    have hzs := ih (fun x hx => h x (List.mem_cons_of_mem z hx))
    simp [allResults, hz, hzs, Bind.bind, Except.bind]
    rfl

theorem allResults_ok_length {f : α → Except Err β} {l : List α} {ys : List β}
    (h : allResults f l = .ok ys) : ys.length = l.length := by
  induction l generalizing ys with
  | nil => simp [allResults] at h; simp [← h]
  | cons z zs ih =>
    cases hz : f z with
    | error e => simp [allResults, hz, Bind.bind, Except.bind] at h
    | ok v =>
      cases hzs : allResults f zs with
      | error e => simp [allResults, hz, hzs, Bind.bind, Except.bind] at h
      | ok vs =>
        simp [allResults, hz, hzs, Bind.bind, Except.bind, pure, Except.pure] at h
        subst h
        simp [ih hzs]

theorem allResults_ok_get {f : α → Except Err β} {l : List α} {ys : List β}
    (h : allResults f l = .ok ys) :
    ∀ (i : Nat) (h1 : i < l.length) (h2 : i < ys.length),
      f (l.get ⟨i, h1⟩) = .ok (ys.get ⟨i, h2⟩) := by
  induction l generalizing ys with
  | nil => intro i h1; cases h1
  | cons z zs ih =>
    intro i h1 h2
    cases hz : f z with
    | error e => simp [allResults, hz, Bind.bind, Except.bind] at h
    | ok v =>
      cases hzs : allResults f zs with
      | error e => simp [allResults, hz, hzs, Bind.bind, Except.bind] at h
      | ok vs =>
        simp [allResults, hz, hzs, Bind.bind, Except.bind, pure, Except.pure] at h
        subst h
        cases i with
        | zero => simpa using hz
        | succ j => exact ih hzs j (Nat.lt_of_succ_lt_succ h1) (Nat.lt_of_succ_lt_succ h2)

theorem splitFields_ne_nil (l : List Char) : splitFields l ≠ [] := by
  cases l with
  | nil => simp [splitFields]
  | cons ch rest =>
    by_cases h : isCookieDelim ch
    · simp [splitFields, h]
    · simp only [splitFields, h]
      cases hs : splitFields rest <;> simp

theorem splitFields_head (l : List Char) :
    (splitFields l).get? 0 = some (l.takeWhile (fun ch => !isCookieDelim ch)) := by
  induction l with
  | nil => rfl
  | cons ch rest ih =>
    by_cases h : isCookieDelim ch
    · simp [splitFields, h, List.takeWhile_cons]
    · cases hs : splitFields rest with
      | nil => exact absurd hs (splitFields_ne_nil rest)
      | cons f fs =>
        rw [hs] at ih
        simp only [List.get?] at ih
        simp [splitFields, h, hs, List.takeWhile_cons, Option.some_inj.mp ih]

theorem splitFields_append_delim (pre : List Char) (d : Char) (rest : List Char)
    (hpre : ∀ ch ∈ pre, isCookieDelim ch = false) (hd : isCookieDelim d = true) :
    splitFields (pre ++ d :: rest) = pre :: splitFields rest := by
  induction pre with
  | nil => simp [splitFields, hd]
  | cons ch pr ih =>
    have hch : isCookieDelim ch = false := hpre ch (List.mem_cons_self ch pr)
    have h' := ih (fun x hx => hpre x (List.mem_cons_of_mem _ hx))
    simp [splitFields, hch, h']

theorem dropWhile_append_all {p : Char → Bool} (pre l : List Char)
    (h : ∀ ch ∈ pre, p ch = true) : (pre ++ l).dropWhile p = l.dropWhile p := by
  induction pre with
  | nil => rfl
  | cons ch pr ih =>
    simp [List.dropWhile_cons, h ch (List.mem_cons_self ch pr),
      ih (fun x hx => h x (List.mem_cons_of_mem _ hx))]

theorem matching_cookie_shape {c : String} (h : sessionCookieRegexMatch c = true) :
    c.data = "figma.st".data ++ '=' :: c.data.drop 9 := by
  unfold sessionCookieRegexMatch at h
  rw [Bool.and_eq_true] at h
  have h1 : c.data.take 9 = "figma.st=".data := beq_iff_eq.mp h.1
  have h9 : ("figma.st=".data : List Char) = "figma.st".data ++ ['='] := by decide
  calc c.data = c.data.take 9 ++ c.data.drop 9 := (List.take_append_drop 9 c.data).symm
    _ = "figma.st".data ++ '=' :: c.data.drop 9 := by
        rw [h1, h9, List.append_assoc]; rfl

theorem extractToken_of_find {cookies : List String} {c : String}
    (hfind : cookies.find? sessionCookieRegexMatch = some c) :
    extractToken cookies = some (codeSessionToken c) := by
  have hmatch : sessionCookieRegexMatch c = true := List.find?_some hfind
  have hsh := matching_cookie_shape hmatch
  have hpre : ∀ ch ∈ ("figma.st".data : List Char), isCookieDelim ch = false := by decide
  have hpre' : ∀ ch ∈ ("figma.st".data : List Char), (fun x => !isCookieDelim x) ch = true := by
    intro ch hch; simp [hpre ch hch]
  unfold extractToken codeSessionToken
  rw [hfind]
  simp only [Option.some_bind]
  rw [hsh, splitFields_append_delim _ _ _ hpre (by decide)]
  have hget : (("figma.st".data : List Char) :: splitFields (c.data.drop 9)).get? 1 =
      (splitFields (c.data.drop 9)).get? 0 := rfl
  rw [hget, splitFields_head]
  rw [dropWhile_append_all _ _ hpre']
  simp [List.dropWhile_cons, isCookieDelim]

theorem sfRun_append (s : SFState α) (es es' : List (SFEvent α)) :
    sfRun s (es ++ es') = sfRun (sfRun s es) es' :=
  List.foldl_append _ _ _ _

theorem sf_arrivals (N : Nat) (h : 1 ≤ N) :
    sfRun (sfInit (α := α)) ((List.range N).map SFEvent.arrive) =
      { status := .pending (List.range N), invocations := 1, delivered := [] } := by
  induction N with
  | zero => cases h
  | succ M ih =>
    rcases Nat.eq_zero_or_pos M with rfl | hM
    · rfl
    · rw [List.range_succ, List.map_append, sfRun_append, ih hM]
      simp [sfRun, sfStep, List.range_succ]

theorem fileGetResult_ok_inv {probe : String → HttpResp} {f : File} {res : Result}
    (h : fileGetResult probe f = .ok res) : ∃ s, getThumbnail probe f = .ok s := by
  cases hg : getThumbnail probe f with
  | error e => simp [fileGetResult, hg, Bind.bind, Except.bind] at h
  | ok s => exact ⟨s, rfl⟩

theorem projectGetResult_ok_inv {probe : String → HttpResp} {org : String}
    {p : ProjectEl} {res : Result} (h : projectGetResult probe org p = .ok res) :
    ∀ f ∈ p.recent_files.take 3, ∃ s, getThumbnail probe f = .ok s := by
  cases hg : allResults (getThumbnail probe) (p.recent_files.take 3) with
  | error e => simp [projectGetResult, hg, Bind.bind, Except.bind] at h
  | ok ths => exact fun f hf => allResults_ok_mem hg f hf

theorem search_ok_inversion {st : EngineState} {q : String} {b : Backend} {rs : List Result}
    (h : search st q b = .ok rs) :
    (∃ l, b.fig_files (searchParams st q) = .ok l ∧
      ∀ el ∈ l, ∃ s, getThumbnail b.probe el.model = .ok s) ∧
    (∃ l, b.folders (searchParams st q) = .ok l ∧
      ∀ p ∈ l, ∀ f ∈ p.recent_files.take 3, ∃ s, getThumbnail b.probe f = .ok s) ∧
    (∃ l, b.teams (searchParams st q) = .ok l) := by
  cases hcl : st.getClient with
  | none => simp [search, hcl] at h
  | some co =>
    cases co with
    | error e => simp [search, hcl, Bind.bind, Except.bind] at h
    | ok cl =>
      cases hfl : b.fig_files (searchParams st q) with
      | error e => simp [search, hcl, hfl, Bind.bind, Except.bind] at h
      | ok fl =>
        cases hfrs : allResults (fun el => fileGetResult b.probe el.model) fl with
        | error e => simp [search, hcl, hfl, hfrs, Bind.bind, Except.bind] at h
        | ok frs =>
          cases hpl : b.folders (searchParams st q) with
          | error e => simp [search, hcl, hfl, hfrs, hpl, Bind.bind, Except.bind] at h
          | ok pl =>
            cases hprs : allResults (projectGetResult b.probe (orgString st)) pl with
            | error e =>
              simp [search, hcl, hfl, hfrs, hpl, hprs, Bind.bind, Except.bind] at h
            | ok prs =>
              cases htl : b.teams (searchParams st q) with
              | error e =>
                simp [search, hcl, hfl, hfrs, hpl, hprs, htl, Bind.bind, Except.bind] at h
              | ok tl =>
                refine ⟨⟨fl, rfl, ?_⟩, ⟨pl, rfl, ?_⟩, ⟨tl, rfl⟩⟩
                · intro el hel
                  obtain ⟨y, hy⟩ := allResults_ok_mem hfrs el hel
                  exact fileGetResult_ok_inv hy
                · intro p hp f hf
                  obtain ⟨y, hy⟩ := allResults_ok_mem hprs p hp
                  exact projectGetResult_ok_inv hy f hf

theorem search_params_only (st : EngineState) (q : String) (b b' : Backend)
    (hf : b'.fig_files (searchParams st q) = b.fig_files (searchParams st q))
    (hp : b'.folders (searchParams st q) = b.folders (searchParams st q))
    (ht : b'.teams (searchParams st q) = b.teams (searchParams st q))
    (hprobe : b'.probe = b.probe) :
    search st q b' = search st q b := by
  cases hcl : st.getClient with
  | none => simp [search, hcl]
  | some co => simp [search, hcl, hf, hp, ht, hprobe]

/-! Claim theorems. -/

/-- C4: for every thumbnail resolution, a probe answering 302 with a
Location header `L` makes the resolution succeed with exactly the fragment
`<a href="<entity url>"><img src="L"></a>`, while any status other than
302 (including 200) makes the resolution fail with an error that
propagates to the caller — there is no silent no-thumbnail fallback. -/
theorem C4_thumbnail_resolution (probe : String → HttpResp) (f : File) (L : String) :
    (probe f.thumbnail_url = ⟨302, L⟩ →
      getThumbnail probe f = .ok ("<a href=\"" ++ f.url ++ "\"><img src=\"" ++ L ++ "\"></a>")) ∧
    ((probe f.thumbnail_url).status ≠ 302 →
      ∃ e, getThumbnail probe f = .error e) := by
  constructor
  · intro h
    simp [getThumbnail, h, thumbnailFragment]
  · intro h
    by_cases h2 : 200 ≤ (probe f.thumbnail_url).status ∧ (probe f.thumbnail_url).status < 300
    · exact ⟨.thumbnailNotFound, by simp [getThumbnail, h2]⟩
    · exact ⟨.httpError (probe f.thumbnail_url).status, by simp [getThumbnail, h2, h]⟩

/-- Witness for C4: a 302 probe pointing at `https://img.example/x.png`
for an entity at `https://fig.example/f/1` resolves to exactly the
fragment of the claim, and a 200 probe makes resolution fail. -/
theorem C4_thumbnail_resolution_witness :
    getThumbnail (fun _ => ⟨302, "https://img.example/x.png"⟩)
        ⟨"amy", "N", "https://t", "https://fig.example/f/1"⟩ =
      .ok "<a href=\"https://fig.example/f/1\"><img src=\"https://img.example/x.png\"></a>" ∧
    (∃ e, getThumbnail (fun _ => ⟨200, "body"⟩) ⟨"amy", "N", "https://t", "u"⟩ = .error e) := by
  constructor
  · have h := (C4_thumbnail_resolution (fun _ => ⟨302, "https://img.example/x.png"⟩)
      ⟨"amy", "N", "https://t", "https://fig.example/f/1"⟩ "https://img.example/x.png").1 rfl
    rw [h]
    rfl
  · exact (C4_thumbnail_resolution (fun _ => ⟨200, "body"⟩)
      ⟨"amy", "N", "https://t", "u"⟩ "ignored").2 (by decide)

/-- C2: every `File` element whose thumbnail probe redirects (302) to `L`
normalizes to the result with title the file's name, url the file's url,
and snippet `File created by <handle><br><a href="<file url>"><img
src="L"></a>`. -/
theorem C2_file_result (probe : String → HttpResp) (f : File) (L : String)
    (h : probe f.thumbnail_url = ⟨302, L⟩) :
    fileGetResult probe f = .ok
      { snippet := some ("File created by " ++ f.creator_handle ++ "<br>" ++
          thumbnailFragment f.url L),
        title := f.name, url := f.url } := by
  simp [fileGetResult, getThumbnail, h, Bind.bind, Except.bind, pure, Except.pure]

/-- Witness for C2, the example of the claim: creator handle `alice`,
name `Doc`, url `https://fig.example/f/2`, probe redirecting to
`https://img.example/x.png`. -/
theorem C2_file_result_witness :
    (fun _ => (⟨302, "https://img.example/x.png"⟩ : HttpResp))
        (File.thumbnail_url ⟨"alice", "Doc", "https://t", "https://fig.example/f/2"⟩) =
      ⟨302, "https://img.example/x.png"⟩ ∧
    fileGetResult (fun _ => ⟨302, "https://img.example/x.png"⟩)
        ⟨"alice", "Doc", "https://t", "https://fig.example/f/2"⟩ =
      .ok { snippet := some "File created by alice<br><a href=\"https://fig.example/f/2\"><img src=\"https://img.example/x.png\"></a>",
            title := "Doc", url := "https://fig.example/f/2" } := by
  refine ⟨rfl, ?_⟩
  have h := C2_file_result (fun _ => ⟨302, "https://img.example/x.png"⟩)
    ⟨"alice", "Doc", "https://t", "https://fig.example/f/2"⟩ "https://img.example/x.png" rfl
  rw [h]
  rfl

/-- C5 counterexample: the cookie `figma.st=a=b` matches the
session-cookie pattern and its substring between the first `=` and the
next `;` or end of string is `a=b`, but the code extracts `a` — it splits
on `=` as well as `;`. -/
theorem C5_counterexample :
    sessionCookieRegexMatch "figma.st=a=b" = true ∧
    specSessionToken "figma.st=a=b" = "a=b" ∧
    extractToken ["figma.st=a=b"] = some "a" ∧
    ("a" : String) ≠ "a=b" ∧
    login ["figma.st=a=b"] =
      .ok { baseURL := "https://www.figma.com", cookie := "figma.st=a" } := by
  refine ⟨rfl, rfl, rfl, by decide, rfl⟩

/-- C5 (amended): for every login response whose cookie list contains a
cookie matching the session-cookie pattern `figma.st=<value>`, the token
is taken from the first matching cookie and equals the substring of that
cookie between the first `=` and the next `=` or `;` (or end of string) —
the second field of the split on both delimiters — and, when that token is
nonempty, it is bound as a `Cookie: figma.st=<token>` header on the
resulting authenticated handle. -/
theorem C5_token_extraction (cookies : List String) (c : String)
    (hfind : cookies.find? sessionCookieRegexMatch = some c) :
    extractToken cookies = some (codeSessionToken c) ∧
    (codeSessionToken c ≠ "" →
      login cookies = .ok { baseURL := "https://www.figma.com",
                            cookie := "figma.st=" ++ codeSessionToken c }) := by
  have hx := extractToken_of_find hfind
  refine ⟨hx, fun hne => ?_⟩
  unfold login
  rw [hx]
  simp [hne]

/-- Witness for C5: the first matching cookie of
`["junk", "figma.st=tok;Path=/"]` yields the token `tok`, bound as
`Cookie: figma.st=tok`. -/
theorem C5_token_extraction_witness :
    (["junk", "figma.st=tok;Path=/"].find? sessionCookieRegexMatch =
      some "figma.st=tok;Path=/") ∧
    extractToken ["junk", "figma.st=tok;Path=/"] = some "tok" ∧
    login ["junk", "figma.st=tok;Path=/"] =
      .ok { baseURL := "https://www.figma.com", cookie := "figma.st=tok" } := by
  have h := C5_token_extraction ["junk", "figma.st=tok;Path=/"] "figma.st=tok;Path=/" rfl
  refine ⟨rfl, ?_, ?_⟩
  · rw [h.1]; rfl
  · rw [h.2 (by decide)]; rfl

/-- C6: a login response none of whose cookies matches the session-cookie
pattern makes the factory fail with the login error, and the accessor
caches nothing: after the rejection its status is back to `idle` (one
invocation was consumed, no handle is stored). -/
theorem C6_login_no_match (cookies : List String)
    (h : ∀ c ∈ cookies, sessionCookieRegexMatch c = false) :
    login cookies = .error .loginFailed ∧
    (sfRun sfInit [.arrive 0, .complete (login cookies)]).status = .idle ∧
    (sfRun sfInit [.arrive 0, .complete (login cookies)]).delivered =
      [(0, .error .loginFailed)] := by
  have hfind : cookies.find? sessionCookieRegexMatch = none := by
    rw [List.find?_eq_none]
    intro x hx
    simp [h x hx]
  have hlogin : login cookies = .error .loginFailed := by
    unfold login extractToken
    rw [hfind]
    rfl
  refine ⟨hlogin, ?_, ?_⟩ <;> simp [sfRun, sfStep, sfInit, hlogin]

/-- Witness for C6: the cookie list `["foo=bar"]` has no match; login
fails and the accessor ends idle with the rejection delivered. -/
theorem C6_login_no_match_witness :
    (∀ c ∈ ["foo=bar"], sessionCookieRegexMatch c = false) ∧
    login ["foo=bar"] = .error .loginFailed ∧
    (sfRun sfInit [.arrive 0, .complete (login ["foo=bar"])]).status = .idle := by
  have h := C6_login_no_match ["foo=bar"] (by decide)
  exact ⟨by decide, h.1, h.2.1⟩

/-- C8: N callers arriving at the accessor before the factory settles
share one factory invocation; all N are delivered the same outcome; a
rejection leaves the cache unpopulated (status `idle`) and the next
arrival re-invokes the factory. -/
theorem C8_single_flight (N : Nat) (hN : 1 ≤ N) (r : Except Err Client) :
    (sfRun sfInit ((List.range N).map SFEvent.arrive ++ [SFEvent.complete r])).invocations = 1 ∧
    (sfRun sfInit ((List.range N).map SFEvent.arrive ++ [SFEvent.complete r])).delivered =
      (List.range N).map (fun c => (c, r)) ∧
    (∀ v, r = .ok v →
      (sfRun sfInit ((List.range N).map SFEvent.arrive ++ [SFEvent.complete r])).status =
        .cached v) ∧
    (∀ e, r = .error e →
      (sfRun sfInit ((List.range N).map SFEvent.arrive ++ [SFEvent.complete r])).status = .idle ∧
      (sfStep (sfRun sfInit ((List.range N).map SFEvent.arrive ++ [SFEvent.complete r]))
        (SFEvent.arrive N)).invocations = 2) := by
  rw [sfRun_append, sf_arrivals N hN]
  refine ⟨?_, ?_, ?_, ?_⟩
  · cases r <;> rfl
  · cases r <;> simp [sfRun, sfStep]
  · rintro v rfl; rfl
  · rintro e rfl; exact ⟨rfl, rfl⟩

/-- Witness for C8: two callers before a rejecting factory — one
invocation, both see the rejection, nothing cached, the third caller
triggers invocation number two. -/
theorem C8_single_flight_witness :
    (1 ≤ 2) ∧
    ((sfRun (sfInit : SFState Client) ((List.range 2).map SFEvent.arrive ++
        [SFEvent.complete (Except.error Err.loginFailed)])).invocations = 1 ∧
     (sfRun (sfInit : SFState Client) ((List.range 2).map SFEvent.arrive ++
        [SFEvent.complete (Except.error Err.loginFailed)])).delivered =
       (List.range 2).map (fun c => (c, (Except.error Err.loginFailed : Except Err Client))) ∧
     (∀ v, (Except.error Err.loginFailed : Except Err Client) = .ok v →
       (sfRun (sfInit : SFState Client) ((List.range 2).map SFEvent.arrive ++
          [SFEvent.complete (Except.error Err.loginFailed)])).status = .cached v) ∧
     (∀ e, (Except.error Err.loginFailed : Except Err Client) = .error e →
       (sfRun (sfInit : SFState Client) ((List.range 2).map SFEvent.arrive ++
          [SFEvent.complete (Except.error Err.loginFailed)])).status = .idle ∧
       (sfStep (sfRun (sfInit : SFState Client) ((List.range 2).map SFEvent.arrive ++
          [SFEvent.complete (Except.error Err.loginFailed)]))
          (SFEvent.arrive 2)).invocations = 2)) :=
  ⟨by decide, C8_single_flight 2 (by decide) (Except.error Err.loginFailed)⟩

/-- C1: whenever one of the three kind sub-queries rejects, or a
thumbnail resolution for a returned file or recent project file fails,
the whole `search` call rejects with an error and never resolves to a
partial list of the kinds that succeeded. -/
theorem C1_no_partial_results (st : EngineState) (q : String) (b : Backend)
    (h : someSubqueryFails st q b) :
    (∃ e, search st q b = .error e) ∧ ∀ rs, search st q b ≠ .ok rs := by
  have hnot : ∀ rs, search st q b ≠ .ok rs := by
    intro rs hok
    obtain ⟨⟨fl, hfl, hfth⟩, ⟨pl, hpl, hpth⟩, ⟨tl, htl⟩⟩ := search_ok_inversion hok
    rcases h with ⟨e, he⟩ | ⟨e, he⟩ | ⟨e, he⟩ |
      ⟨l, el, e, hl, hmem, hth⟩ | ⟨l, p, f, e, hl, hpmem, hfmem, hth⟩
    · rw [hfl] at he; simp at he
    · rw [hpl] at he; simp at he
    · rw [htl] at he; simp at he
    · rw [hfl] at hl
      injection hl with hl'
      subst hl'
      obtain ⟨s, hs⟩ := hfth el hmem
      rw [hth] at hs; simp at hs
    · rw [hpl] at hl
      injection hl with hl'
      subst hl'
      obtain ⟨s, hs⟩ := hpth p hpmem f hfmem
      rw [hth] at hs; simp at hs
  refine ⟨?_, hnot⟩
  cases hs : search st q b with
  | error e => exact ⟨e, rfl⟩
  | ok rs => exact absurd hs (hnot rs)

/-- Witness for C1: a backend whose teams sub-query rejects while files
and projects succeed makes the whole search reject. -/
theorem C1_no_partial_results_witness :
    someSubqueryFails sampleState "q" sampleBackendTeamsFail ∧
    (∃ e, search sampleState "q" sampleBackendTeamsFail = .error e) := by
  have hfail : someSubqueryFails sampleState "q" sampleBackendTeamsFail :=
    Or.inr (Or.inr (Or.inl ⟨Err.backendError "boom", rfl⟩))
  exact ⟨hfail, (C1_no_partial_results sampleState "q" sampleBackendTeamsFail hfail).1⟩

/-- C7: a successful search returns exactly the normalized files results,
then the projects results, then the teams results, each kind mapped
elementwise in the backend's order (equal lengths and pointwise
normalization — no deduplication or re-ranking). -/
theorem C7_aggregation_order (st : EngineState) (q : String) (b : Backend) (cl : Client)
    (fl : List FileEl) (pl : List ProjectEl) (tl : List TeamEl) (frs prs : List Result)
    (hcl : st.getClient = some (.ok cl))
    (hfl : b.fig_files (searchParams st q) = .ok fl)
    (hfrs : allResults (fun el => fileGetResult b.probe el.model) fl = .ok frs)
    (hpl : b.folders (searchParams st q) = .ok pl)
    (hprs : allResults (projectGetResult b.probe (orgString st)) pl = .ok prs)
    (htl : b.teams (searchParams st q) = .ok tl) :
    search st q b = .ok (frs ++ prs ++ tl.map (teamGetResult (orgString st))) ∧
    frs.length = fl.length ∧ prs.length = pl.length ∧
    (∀ (i : Nat) (h1 : i < fl.length) (h2 : i < frs.length),
      fileGetResult b.probe (fl.get ⟨i, h1⟩).model = .ok (frs.get ⟨i, h2⟩)) ∧
    (∀ (i : Nat) (h1 : i < pl.length) (h2 : i < prs.length),
      projectGetResult b.probe (orgString st) (pl.get ⟨i, h1⟩) = .ok (prs.get ⟨i, h2⟩)) := by
  refine ⟨?_, allResults_ok_length hfrs, allResults_ok_length hprs,
    allResults_ok_get hfrs, allResults_ok_get hprs⟩
  simp [search, hcl, hfl, hfrs, hpl, hprs, htl, Bind.bind, Except.bind, pure, Except.pure]

/-- Witness for C7: one file and one team; the flat list is the file
result followed by the team result. -/
theorem C7_aggregation_order_witness :
    sampleState.getClient = some (.ok sampleClient) ∧
    search sampleState "q" sampleBackend = .ok
      [ { snippet := some "File created by alice<br><a href=\"https://fig.example/f/2\"><img src=\"https://img.example/x.png\"></a>",
          title := "Doc", url := "https://fig.example/f/2" },
        { snippet := some "Team with 3 members", title := "T",
          url := "https://www.figma.com/files/5/team/t1" } ] := by
  refine ⟨rfl, ?_⟩
  have h := (C7_aggregation_order sampleState "q" sampleBackend sampleClient
    [{ model := sampleFile }] [] [sampleTeam]
    [ { snippet := some "File created by alice<br><a href=\"https://fig.example/f/2\"><img src=\"https://img.example/x.png\"></a>",
        title := "Doc", url := "https://fig.example/f/2" } ] []
    rfl rfl rfl rfl rfl rfl).1
  rw [h]
  rfl

/-- C9: `search` on the uninitialized engine fails with the
not-initialized error, for every query and independently of the backend,
so no backend request is issued. -/
theorem C9_not_initialized (st : EngineState) (q : String) (b : Backend)
    (h : st.getClient = none) :
    search st q b = .error .notInitialized ∧
    ∀ b' : Backend, search st q b' = search st q b := by
  have h1 : ∀ b' : Backend, search st q b' = .error .notInitialized := by
    intro b'
    simp [search, h]
  exact ⟨h1 b, fun b' => (h1 b').trans (h1 b).symm⟩

/-- Witness for C9: the fresh engine state rejects a search with the
not-initialized error. -/
theorem C9_not_initialized_witness :
    sampleUninit.getClient = none ∧
    search sampleUninit "q" sampleBackendEmpty = .error .notInitialized :=
  ⟨rfl, (C9_not_initialized sampleUninit "q" sampleBackendEmpty rfl).1⟩

/-- C10: when all three sub-queries answer with empty result lists,
search resolves to the empty list, and the outcome does not depend on the
probe — no thumbnail probe is issued. -/
theorem C10_empty_search (st : EngineState) (q : String) (b : Backend) (cl : Client)
    (hcl : st.getClient = some (.ok cl))
    (hf : b.fig_files (searchParams st q) = .ok [])
    (hp : b.folders (searchParams st q) = .ok [])
    (ht : b.teams (searchParams st q) = .ok []) :
    search st q b = .ok [] ∧
    ∀ probe2 : String → HttpResp,
      search st q { b with probe := probe2 } = .ok [] := by
  have key : ∀ probe2 : String → HttpResp,
      search st q { b with probe := probe2 } = .ok [] := by
    intro probe2
    simp [search, hcl, hf, hp, ht, allResults, Bind.bind, Except.bind, pure, Except.pure]
  exact ⟨key b.probe, key⟩

/-- Witness for C10: three empty sub-query answers produce the empty
result list. -/
theorem C10_empty_search_witness :
    sampleState.getClient = some (.ok sampleClient) ∧
    search sampleState "q" sampleBackendEmpty = .ok [] :=
  ⟨rfl, (C10_empty_search sampleState "q" sampleBackendEmpty sampleClient rfl rfl rfl rfl).1⟩

/-- C3: for project and team elements the urls are
`https://www.figma.com/files/<org>/project/<id>` and
`https://www.figma.com/files/<org>/team/<id>` with the organization id
supplied at initialization; the project snippet is the singular/plural
file count followed by the thumbnails of the first at most 3 recent
files joined with no separator, the team snippet the singular/plural
member count; and the search sub-requests carry exactly the parameters
built from that organization id (a backend agreeing on those parameters
gives the identical search outcome). -/
theorem C3_project_team (org : Nat) (cookies : List String) (cl : Client) (q : String)
    (b : Backend) (p : ProjectEl) (t : TeamEl) (ths : List String)
    (hlogin : login cookies = .ok cl)
    (hf : b.fig_files (mkSearchParams (toString org) q) = .ok [])
    (hp : b.folders (mkSearchParams (toString org) q) = .ok [p])
    (ht : b.teams (mkSearchParams (toString org) q) = .ok [t])
    (hth : allResults (getThumbnail b.probe) (p.recent_files.take 3) = .ok ths) :
    search (init org cookies) q b = .ok
      [ { snippet := some ("Project containing " ++
            (if p.file_count = 1 then "1 file" else toString p.file_count ++ " files") ++
            "<br>" ++ String.join ths),
          title := p.model.name,
          url := "https://www.figma.com/files/" ++ toString org ++ "/project/" ++ p.model.id },
        { snippet := some ("Team with " ++
            (if t.member_count = 1 then "1 member" else toString t.member_count ++ " members")),
          title := t.model.name,
          url := "https://www.figma.com/files/" ++ toString org ++ "/team/" ++ t.model.id } ] ∧
    (∀ b' : Backend,
      b'.fig_files (mkSearchParams (toString org) q) = b.fig_files (mkSearchParams (toString org) q) →
      b'.folders (mkSearchParams (toString org) q) = b.folders (mkSearchParams (toString org) q) →
      b'.teams (mkSearchParams (toString org) q) = b.teams (mkSearchParams (toString org) q) →
      b'.probe = b.probe →
      search (init org cookies) q b' = search (init org cookies) q b) := by
  constructor
  · simp [search, init, searchParams, orgString, hlogin, hf, hp, ht, hth, allResults,
      projectGetResult, teamGetResult, Bind.bind, Except.bind, pure, Except.pure]
  · intro b' h1 h2 h3 h4
    exact search_params_only (init org cookies) q b b' h1 h2 h3 h4

/-- Witness for C3: organization 5, one project with a single file and no
recent files, one team with three members. -/
theorem C3_project_team_witness :
    login ["figma.st=tok"] = .ok sampleClient ∧
    search (init 5 ["figma.st=tok"]) "q" sampleBackendPT = .ok
      [ { snippet := some "Project containing 1 file<br>", title := "P",
          url := "https://www.figma.com/files/5/project/p1" },
        { snippet := some "Team with 3 members", title := "T",
          url := "https://www.figma.com/files/5/team/t1" } ] := by
  refine ⟨rfl, ?_⟩
  have h := (C3_project_team 5 ["figma.st=tok"] sampleClient "q" sampleBackendPT
    sampleProject sampleTeam [] rfl rfl rfl rfl rfl).1
  rw [h]
  rfl

end Figma
